import Mathlib

/-!
Verification of the incremental sync engine of `tap_appstore`
(`src/tap_appstore/__init__.py`).

The Python module is shallowly embedded below:

* Python dicts (used for the per-row mappings, the bookmark state and the
  per-stream counters) become insertion-ordered association lists with
  overwrite-in-place semantics (`dictInsert` / `dictGet`), mirroring CPython
  dict behaviour: assigning to an existing key replaces its value in place,
  assigning to a fresh key appends it.
* Python `str.split(sep)`, `str.strip()`, `str.lower()` and
  `str.replace(' ', '_')` become the structurally recursive functions
  `pySplit`, `pyStrip`, `pyLower` and `pyReplaceSpace`.
* `datetime` instants become `Int` seconds since the Unix epoch (the tap works
  in UTC throughout, where `timedelta(days=1)` is exactly 86400 seconds);
  `datetime.strptime(s, "%Y-%m-%dT%H:%M:%SZ")` becomes `strptimeZ`, and
  `strftime` of the two formats used by the tap becomes `strftimeZ` and
  `strftimeDay`, via the standard civil-calendar conversions.
* The singer side effects (`write_schema`, `write_record`, `write_state`) and
  the App Store Connect fetch (`api.sales_report(...)`) become an explicit
  trace of `Event`s produced by the run; the vendor api object and the singer
  `Transformer` are parameters of the run (`Api`, `Transform`), exactly as the
  Python code treats them as opaque collaborators.
* A raised Python exception becomes an `Except.error` outcome paired with the
  trace of events emitted before the raise.
-/

/-- Insertion-ordered association list standing for a Python `dict` with
`String` keys. -/
abbrev Dict (α : Type) := List (String × α)

/-- Values stored in an emitted record: the tsv parser produces strings, the
`line_id` injection adds an integer. -/
inductive Value where
  | str (s : String)
  | int (n : Int)
deriving DecidableEq, Repr

/-- A record as passed to the transformer / emitted. -/
abbrev Rec := Dict Value

/-- The bookmark section of the singer state: stream name to the stored
`start_date` bookmark string. -/
abbrev Bookmarks := Dict String

/-- Per-stream record counters (`Context.new_counts`, `Context.updated_counts`). -/
abbrev Counts := Dict Nat

/-- Lookup in a Python dict: the value at the key, if present. -/
def dictGet {α : Type} : Dict α → String → Option α
  | [], _ => none
  | p :: rest, k => if p.1 == k then some p.2 else dictGet rest k

/-- Assignment `d[k] = v` on a Python dict: replaces the value of the key in
place when the key is present, appends the new pair otherwise (CPython dicts
preserve insertion order and keep the original position on re-assignment). -/
def dictInsert {α : Type} : Dict α → String → α → Dict α
  | [], k, v => [(k, v)]
  | p :: rest, k, v => if p.1 == k then (k, v) :: rest else p :: dictInsert rest k v

theorem dictGet_insert_self {α : Type} (d : Dict α) (k : String) (v : α) :
    dictGet (dictInsert d k v) k = some v := by
  induction d with
  | nil => simp [dictInsert, dictGet]
  | cons p rest ih =>
    by_cases hp : (p.1 == k) = true
    · simp [dictInsert, dictGet, hp]
    · simp [dictInsert, dictGet, hp, ih]

theorem dictGet_insert_ne {α : Type} (d : Dict α) (k q : String) (v : α) (h : q ≠ k) :
    dictGet (dictInsert d k v) q = dictGet d q := by
  have hkq : ((k : String) == q) = false := by
    simp only [beq_eq_false_iff_ne]
    exact fun hc => h hc.symm
  induction d with
  | nil => simp [dictInsert, dictGet, hkq]
  | cons p rest ih =>
    by_cases hp : (p.1 == k) = true
    · have hpq : (p.1 == q) = false := by
        simp only [beq_iff_eq] at hp
        simp only [beq_eq_false_iff_ne, hp]
        exact fun hc => h hc.symm
      simp [dictInsert, dictGet, hp, hkq, hpq]
    · by_cases hpq : (p.1 == q) = true
      · simp [dictInsert, dictGet, hp, hpq]
      · simp [dictInsert, dictGet, hp, hpq, ih]

theorem dictInsert_insert_same {α : Type} (d : Dict α) (k : String) (v w : α) :
    dictInsert (dictInsert d k v) k w = dictInsert d k w := by
  induction d with
  | nil => simp [dictInsert]
  | cons p rest ih =>
    by_cases hp : (p.1 == k) = true
    · simp [dictInsert, hp]
    · simp [dictInsert, hp, ih]

/-! ## Python string primitives used by `tsv_to_list` -/

/-- Python `str.split(sep)` for a one-character separator, on character lists:
`"".split(c) = [""]`, and each occurrence of the separator starts a new
(possibly empty) field. -/
def splitCharList (c : Char) : List Char → List (List Char)
  | [] => [[]]
  | x :: xs =>
    let r := splitCharList c xs
    if x = c then [] :: r
    else
      match r with
      | [] => [[x]]
      | y :: ys => (x :: y) :: ys

/-- Python `s.split(c)` on strings. -/
def pySplit (s : String) (c : Char) : List String :=
  (splitCharList c s.toList).map (fun l => String.mk l)

/-- Is this character stripped by Python `str.strip()` (ASCII whitespace). -/
def isPySpace (c : Char) : Bool :=
  c = ' ' || c = '\t' || c = '\n' || c = '\r' || c = '\x0b' || c = '\x0c'

/-- Python `s.strip()`: drop leading and trailing whitespace. -/
def pyStrip (s : String) : String :=
  String.mk (((s.toList.dropWhile isPySpace).reverse.dropWhile isPySpace).reverse)

/-- Python `s.lower()` (ASCII letters, which is all the report headers use). -/
def pyLower (s : String) : String :=
  String.mk (s.toList.map Char.toLower)

/-- Python `s.replace(' ', '_')`. -/
def pyReplaceSpace (s : String) : String :=
  String.mk (s.toList.map (fun ch => if ch = ' ' then '_' else ch))

/-! ## The tabular text parser (`tsv_to_list`, lines 108-123) -/

/-- Body of the inner loop of `tsv_to_list`: build `line_obj` by iterating
`for i, column in enumerate(header)` and assigning
`line_obj[column] = line_cols[i].strip()` whenever `i < len(line_cols)`. -/
def mkLineObj (header line_cols : List String) : Dict String :=
  header.enum.foldl
    (fun line_obj p =>
      if p.1 < line_cols.length then dictInsert line_obj p.2 (pyStrip (line_cols.getD p.1 ""))
      else line_obj)
    []

/-- `tsv_to_list` (lines 108-123): split the text into newline-separated
lines, derive the mapping keys from the first line (lower-cased,
spaces replaced by underscores), and turn every non-empty further line into
one mapping. -/
def tsv_to_list (tsv : String) : List (Dict String) :=
  let lines := pySplit tsv '\n'
  let header := (pySplit (lines.headD "") '\t').map (fun s => pyReplaceSpace (pyLower s))
  (lines.drop 1).filterMap
    (fun line =>
      if line.length = 0 then none
      else some (mkLineObj header (pySplit line '\t')))

/-! ## UTC date-times as seconds since the Unix epoch

`datetime.strptime(s, "%Y-%m-%dT%H:%M:%SZ").replace(tzinfo=pytz.UTC)` and the
two `strftime` formats of the tap are modelled over `Int` seconds since
1970-01-01T00:00:00Z, using the standard proleptic-Gregorian civil-calendar
conversions. -/

/-- Gregorian leap-year test. -/
def isLeap (y : Int) : Bool :=
  (y % 4 == 0 && y % 100 != 0) || y % 400 == 0

/-- Number of days of a month (`datetime` validates the day against this). -/
def daysInMonth (y m : Int) : Int :=
  if m == 2 then (if isLeap y then 29 else 28)
  else if m == 4 || m == 6 || m == 9 || m == 11 then 30
  else 31

/-- Days since 1970-01-01 of a civil date (Howard Hinnant's algorithm). -/
def daysFromCivil (y m d : Int) : Int :=
  let yy := if m ≤ 2 then y - 1 else y
  let era := yy.ediv 400
  let yoe := yy - era * 400
  let mp := (m + 9).emod 12
  let doy := (153 * mp + 2).ediv 5 + d - 1
  let doe := yoe * 365 + yoe.ediv 4 - yoe.ediv 100 + doy
  era * 146097 + doe - 719468

/-- Civil date (year, month, day) of a count of days since 1970-01-01. -/
def civilFromDays (z : Int) : Int × Int × Int :=
  let zz := z + 719468
  let era := zz.ediv 146097
  let doe := zz - era * 146097
  let yoe := (doe - doe.ediv 1460 + doe.ediv 36524 - doe.ediv 146096).ediv 365
  let y := yoe + era * 400
  let doy := doe - (365 * yoe + yoe.ediv 4 - yoe.ediv 100)
  let mp := (5 * doy + 2).ediv 153
  let d := doy - (153 * mp + 2).ediv 5 + 1
  let m := if mp < 10 then mp + 3 else mp - 9
  (if m ≤ 2 then y + 1 else y, m, d)

/-- Zero-padded two-digit decimal field (`%m`, `%d`, `%H`, `%M`, `%S`). -/
def pad2 (n : Int) : String :=
  (if n < 10 then "0" else "") ++ toString n

/-- Zero-padded four-digit decimal field (`%Y`). -/
def pad4 (n : Int) : String :=
  (if n < 10 then "000" else if n < 100 then "00" else if n < 1000 then "0" else "") ++ toString n

/-- `iterator.strftime("%Y-%m-%d")` (line 153). -/
def strftimeDay (t : Int) : String :=
  let c := civilFromDays (t.ediv 86400)
  pad4 c.1 ++ "-" ++ pad2 c.2.1 ++ "-" ++ pad2 c.2.2

/-- `iterator.strftime(BOOKMARK_DATE_FORMAT)` with
`BOOKMARK_DATE_FORMAT = "%Y-%m-%dT%H:%M:%SZ"` (lines 26, 174). -/
def strftimeZ (t : Int) : String :=
  let sod := t.emod 86400
  strftimeDay t ++ "T" ++ pad2 (sod.ediv 3600) ++ ":" ++ pad2 ((sod.ediv 60).emod 60)
    ++ ":" ++ pad2 (sod.emod 60) ++ "Z"

/-- Numeric value of a decimal digit character. -/
def digitVal (c : Char) : Int :=
  Int.ofNat (c.toNat - 48)

/-- Numeric value of a run of decimal digit characters. -/
def digitsVal (l : List Char) : Int :=
  l.foldl (fun acc c => 10 * acc + digitVal c) 0

/-- The maximal leading run of decimal digits of a character list, paired
with the remaining characters. -/
def spanDigits : List Char → List Char × List Char
  | [] => ([], [])
  | c :: cs =>
    if c.isDigit then
      let r := spanDigits cs
      (c :: r.1, r.2)
    else ([], c :: cs)

/-- `datetime.strptime(s, "%Y-%m-%dT%H:%M:%SZ")` (line 144), faithful to the
CPython implementation, which compiles the format to an anchored,
case-insensitive regular expression: `%Y` is exactly four digits; `%m`, `%d`,
`%H`, `%M`, `%S` each accept one or two digits with the leading zero optional
(`1[0-2]|0[1-9]|[1-9]` for the month, and so on — over digit runs delimited
by the format's non-digit separators this is exactly: run length 1 or 2,
month in 1..12, day in 1..31, hour at most 23, minute at most 59, second at
most 61); the literal `T` and `Z` match case-insensitively, so `t` and `z`
are accepted; and nothing may remain after the match. The matched values are
then passed to the `datetime` constructor, which further requires the year at
least 1, the day within the month's length, and the second at most 59.
Digits are the ASCII ones, like the rest of the string model. Any failure
raises `ValueError`, modelled as `none`. So, for example,
`2024-1-1t0:0:0z` parses to the same instant as `2024-01-01T00:00:00Z`,
while `2024-00-01T00:00:00Z`, `2024-02-30T00:00:00Z` and
`2024-01-01T00:00:60Z` are all rejected. -/
def strptimeZ (s : String) : Option Int :=
  let py := spanDigits s.toList
  if py.1.length = 4 then
    match py.2 with
    | '-' :: rm =>
      let pm := spanDigits rm
      if 1 ≤ pm.1.length ∧ pm.1.length ≤ 2 ∧ 1 ≤ digitsVal pm.1 ∧ digitsVal pm.1 ≤ 12 then
        match pm.2 with
        | '-' :: rd =>
          let pd := spanDigits rd
          if 1 ≤ pd.1.length ∧ pd.1.length ≤ 2 ∧ 1 ≤ digitsVal pd.1 ∧ digitsVal pd.1 ≤ 31 then
            match pd.2 with
            | ct :: rh =>
              if ct = 'T' ∨ ct = 't' then
                let ph := spanDigits rh
                if 1 ≤ ph.1.length ∧ ph.1.length ≤ 2 ∧ digitsVal ph.1 ≤ 23 then
                  match ph.2 with
                  | ':' :: rn =>
                    let pn := spanDigits rn
                    if 1 ≤ pn.1.length ∧ pn.1.length ≤ 2 ∧ digitsVal pn.1 ≤ 59 then
                      match pn.2 with
                      | ':' :: rs =>
                        let ps := spanDigits rs
                        if 1 ≤ ps.1.length ∧ ps.1.length ≤ 2 ∧ digitsVal ps.1 ≤ 61 then
                          match ps.2 with
                          | [cz] =>
                            if cz = 'Z' ∨ cz = 'z' then
                              let y := digitsVal py.1
                              let m := digitsVal pm.1
                              let d := digitsVal pd.1
                              let hh := digitsVal ph.1
                              let mi := digitsVal pn.1
                              let ss := digitsVal ps.1
                              if 1 ≤ y ∧ d ≤ daysInMonth y m ∧ ss ≤ 59 then
                                some (daysFromCivil y m d * 86400 + hh * 3600 + mi * 60 + ss)
                              else none
                            else none
                          | _ => none
                        else none
                      | _ => none
                    else none
                  | _ => none
                else none
              else none
            | [] => none
          else none
        | _ => none
      else none
    | _ => none
  else none

/-! ## The sync engine (`sync`, `query_report`, `get_bookmark`) -/

/-- One entry of `Context.catalog['streams']`. The `selected` flag stands for
the `metadata` selection entry that `Context.is_selected` would read; the sync
path never calls `is_selected`, which the claims about selection independence
make precise. -/
structure CatalogEntry where
  stream : String
  tap_stream_id : String
  schema : String
  key_properties : List String
  selected : Bool
deriving DecidableEq, Repr

/-- The parts of `Context.config` the sync path reads. -/
structure Config where
  vendor : String
  start_date : String
deriving DecidableEq, Repr

/-- The vendor client: `api.sales_report(report_type, report_subtype,
frequency, vendor, report_date, version)` returning raw tabular text. -/
abbrev Api := String → String → String → String → String → String → String

/-- The singer transformer: `transformer.transform(data, stream_schema)`,
an opaque pure collaborator taking the schema and the raw record. -/
abbrev Transform := String → Rec → Rec

/-- Observable singer output of a run: one constructor per singer write call,
plus one per vendor fetch. -/
inductive Event where
  | schemaMsg (stream schema : String) (key_properties : List String)
  | fetch (report_type report_subtype frequency vendor report_date version : String)
  | record (stream : String) (rec : Rec) (time_extracted : Int)
  | stateMsg (bookmarks : Bookmarks)
deriving DecidableEq, Repr

/-- `Context.new_counts[stream_name] += 1` (line 168); `sync` has initialised
the key of every catalog stream before `query_report` runs. -/
def incrCount (c : Counts) (k : String) : Counts :=
  c.map (fun p => if p.1 == k then (p.1, p.2 + 1) else p)

/-- `Context.get_catalog_entry` (lines 38-42): build `stream_map` as a dict
keyed by `tap_stream_id` (later entries overwrite earlier ones) and look the
stream up in it. -/
def get_catalog_entry (catalog : List CatalogEntry) (stream_name : String) :
    Option CatalogEntry :=
  dictGet (catalog.foldl (fun m s => dictInsert m s.tap_stream_id s) []) stream_name

/-- `singer.get_bookmark(Context.state, name, 'start_date')`: the stored
bookmark string of the stream, if any. -/
def singer_get_bookmark (state : Bookmarks) (name : String) : Option String :=
  dictGet state name

/-- `get_bookmark` (lines 184-188): the stored bookmark, falling back to
`Context.config['start_date']`. -/
def get_bookmark (state : Bookmarks) (config_start_date : String) (name : String) : String :=
  match singer_get_bookmark state name with
  | some b => b
  | none => config_start_date

/-- The `while iterator + delta <= extraction_time` loop of `query_report`
(lines 151-179): fetch the day, parse it, emit each row with the 1-based
`line_id` injected, count it, then write and persist the bookmark of the day
just processed and advance the iterator by one day. -/
def syncLoop (api : Api) (transform : Transform) (vendor schema : String)
    (extraction_time : Int) (iterator : Int) (state : Bookmarks) (counts : Counts) :
    List Event × Bookmarks × Counts :=
  if _hmore : iterator + 86400 ≤ extraction_time then
    let iterator_str := strftimeDay iterator
    let rep_tsv := api "SALES" "SUMMARY" "DAILY" vendor iterator_str "1_0"
    let rep := tsv_to_list rep_tsv
    let emitted := rep.enum.foldl
      (fun (acc : List Event × Counts) p =>
        let data := dictInsert (p.2.map (fun q => (q.1, Value.str q.2))) "line_id"
          (Value.int ((p.1 : Int) + 1))
        let r0 := transform schema data
        (acc.1 ++ [Event.record "summary_sales_report" r0 extraction_time],
         incrCount acc.2 "summary_sales_report"))
      ([], counts)
    let state1 := dictInsert state "summary_sales_report" (strftimeZ iterator)
    let rest := syncLoop api transform vendor schema extraction_time (iterator + 86400)
      state1 emitted.2
    (Event.fetch "SALES" "SUMMARY" "DAILY" vendor iterator_str "1_0"
        :: emitted.1 ++ [Event.stateMsg state1] ++ rest.1,
      rest.2)
  else ([], state, counts)
termination_by (extraction_time - iterator).toNat
decreasing_by simp_wf; omega

/-- `query_report` (lines 138-181). The hard-coded stream is
`summary_sales_report`; a missing catalog entry raises (`catalog_entry['schema']`
on `None`), a malformed bookmark raises `ValueError` in `strptime`; otherwise
the day loop runs and a final `write_state` closes the run. The result pairs
the emitted events with the outcome (final bookmark state and new-counts on
success). -/
def query_report (catalog : List CatalogEntry) (config : Config) (state0 : Bookmarks)
    (api : Api) (transform : Transform) (extraction_time : Int) (counts : Counts) :
    List Event × Except String (Bookmarks × Counts) :=
  match get_catalog_entry catalog "summary_sales_report" with
  | none => ([], Except.error "TypeError: NoneType is not subscriptable")
  | some catalog_entry =>
    match strptimeZ (get_bookmark state0 config.start_date "summary_sales_report") with
    | none => ([], Except.error "ValueError: time data does not match format")
    | some bookmark =>
      let r := syncLoop api transform config.vendor catalog_entry.schema extraction_time
        bookmark state0 counts
      (r.1 ++ [Event.stateMsg r.2.1], Except.ok (r.2.1, r.2.2))

/-- `sync` (lines 126-135): write every stream's schema, zero both counters of
every stream, then run `query_report`. On success the outcome carries the
final bookmark state, the final `new_counts` and the (never touched)
`updated_counts`. -/
def sync (catalog : List CatalogEntry) (config : Config) (state0 : Bookmarks)
    (api : Api) (transform : Transform) (extraction_time : Int) :
    List Event × Except String (Bookmarks × Counts × Counts) :=
  let schemaEvents := catalog.map
    (fun e => Event.schemaMsg e.tap_stream_id e.schema e.key_properties)
  let new0 : Counts := catalog.foldl (fun c e => dictInsert c e.tap_stream_id 0) []
  let upd0 : Counts := catalog.foldl (fun c e => dictInsert c e.tap_stream_id 0) []
  let r := query_report catalog config state0 api transform extraction_time new0
  (schemaEvents ++ r.1, r.2.map (fun p => (p.1, p.2, upd0)))

/-! ## Characterising one run of the loop -/

/-- Add `n` to the counter of stream `k` (iterated `incrCount`). -/
def addCount (c : Counts) (k : String) (n : Nat) : Counts :=
  c.map (fun p => if p.1 == k then (p.1, p.2 + n) else p)

theorem addCount_zero (c : Counts) (k : String) : addCount c k 0 = c := by
  unfold addCount
  have : ∀ p ∈ c, (if p.1 == k then (p.1, p.2 + 0) else p) = id p := by
    intro p _
    by_cases hp : (p.1 == k) = true <;> simp [hp]
  rw [List.map_congr_left this, List.map_id]

theorem addCount_addCount (c : Counts) (k : String) (a b : Nat) :
    addCount (addCount c k a) k b = addCount c k (a + b) := by
  unfold addCount
  rw [List.map_map]
  apply List.map_congr_left
  intro p _
  by_cases hp : p.1 = k
  · simp [hp, Nat.add_assoc]
  · simp [hp]

theorem incrCount_eq_addCount_one (c : Counts) (k : String) :
    incrCount c k = addCount c k 1 := rfl

/-- The record events the engine emits for one day whose fetched report text
is `raw`: one record per parsed row, in row order, with the 1-based
`line_id` injected before the transformer is applied. -/
def dayRecords (transform : Transform) (schema : String) (extraction_time : Int)
    (raw : String) : List Event :=
  (tsv_to_list raw).enum.map
    (fun p =>
      Event.record "summary_sales_report"
        (transform schema
          (dictInsert (p.2.map (fun q => (q.1, Value.str q.2))) "line_id"
            (Value.int ((p.1 : Int) + 1))))
        extraction_time)

/-- The full event block of one processed day `d` starting from bookmark state
`st`: the vendor fetch, the day's records, then the state persistence carrying
the bookmark of the day just processed. -/
def dayTrace (api : Api) (transform : Transform) (vendor schema : String)
    (extraction_time : Int) (st : Bookmarks) (d : Int) : List Event :=
  Event.fetch "SALES" "SUMMARY" "DAILY" vendor (strftimeDay d) "1_0"
    :: dayRecords transform schema extraction_time
        (api "SALES" "SUMMARY" "DAILY" vendor (strftimeDay d) "1_0")
    ++ [Event.stateMsg (dictInsert st "summary_sales_report" (strftimeZ d))]

/-- Parsed row count of the report fetched for day `d`. -/
def dayRowCount (api : Api) (vendor : String) (d : Int) : Nat :=
  (tsv_to_list (api "SALES" "SUMMARY" "DAILY" vendor (strftimeDay d) "1_0")).length

theorem dayTrace_insert_same (api : Api) (transform : Transform) (vendor schema : String)
    (T : Int) (st : Bookmarks) (w : String) (d : Int) :
    dayTrace api transform vendor schema T (dictInsert st "summary_sales_report" w) d
      = dayTrace api transform vendor schema T st d := by
  unfold dayTrace
  rw [dictInsert_insert_same]

theorem recordFold (transform : Transform) (schema : String) (T : Int)
    (l : List (Dict String)) :
    ∀ (n : Nat) (evs : List Event) (c : Counts),
      (l.enumFrom n).foldl
        (fun (acc : List Event × Counts) p =>
          let data := dictInsert (p.2.map (fun q => (q.1, Value.str q.2))) "line_id"
            (Value.int ((p.1 : Int) + 1))
          let r0 := transform schema data
          (acc.1 ++ [Event.record "summary_sales_report" r0 T],
           incrCount acc.2 "summary_sales_report"))
        (evs, c)
      = (evs ++ (l.enumFrom n).map
            (fun p =>
              Event.record "summary_sales_report"
                (transform schema
                  (dictInsert (p.2.map (fun q => (q.1, Value.str q.2))) "line_id"
                    (Value.int ((p.1 : Int) + 1))))
                T),
          addCount c "summary_sales_report" l.length) := by
  induction l with
  | nil =>
    intro n evs c
    simp [List.enumFrom, addCount_zero]
  | cons a xs ih =>
    intro n evs c
    rw [List.enumFrom_cons, List.foldl_cons, List.map_cons]
    rw [ih (n + 1)]
    rw [incrCount_eq_addCount_one, addCount_addCount]
    simp [List.length_cons, Nat.add_comm]

theorem syncLoop_stop (api : Api) (transform : Transform) (vendor schema : String)
    (T it : Int) (st : Bookmarks) (cn : Counts) (h : ¬ it + 86400 ≤ T) :
    syncLoop api transform vendor schema T it st cn = ([], st, cn) := by
  rw [syncLoop]
  simp [h]

theorem syncLoop_step (api : Api) (transform : Transform) (vendor schema : String)
    (T it : Int) (st : Bookmarks) (cn : Counts) (h : it + 86400 ≤ T) :
    syncLoop api transform vendor schema T it st cn =
      (dayTrace api transform vendor schema T st it
          ++ (syncLoop api transform vendor schema T (it + 86400)
              (dictInsert st "summary_sales_report" (strftimeZ it))
              (addCount cn "summary_sales_report" (dayRowCount api vendor it))).1,
        (syncLoop api transform vendor schema T (it + 86400)
            (dictInsert st "summary_sales_report" (strftimeZ it))
            (addCount cn "summary_sales_report" (dayRowCount api vendor it))).2) := by
  conv_lhs => rw [syncLoop]
  simp only [h, dif_pos]
  have hfold := recordFold transform schema T
    (tsv_to_list (api "SALES" "SUMMARY" "DAILY" vendor (strftimeDay it) "1_0")) 0 [] cn
  rw [show List.enumFrom 0 = fun l => @List.enum (Dict String) l from rfl] at hfold
  rw [hfold]
  unfold dayTrace dayRecords dayRowCount
  simp

theorem syncLoop_run (api : Api) (transform : Transform) (vendor schema : String)
    (T : Int) (k : Nat) :
    ∀ (it : Int) (st : Bookmarks) (cn : Counts),
      (k ≠ 0 → it + (k : Int) * 86400 ≤ T) →
      T < it + ((k : Int) + 1) * 86400 →
      syncLoop api transform vendor schema T it st cn =
        (((List.range k).map
            (fun (j : Nat) =>
              dayTrace api transform vendor schema T st (it + (j : Int) * 86400))).flatten,
         (if k = 0 then st
          else dictInsert st "summary_sales_report" (strftimeZ (it + ((k : Int) - 1) * 86400))),
         addCount cn "summary_sales_report"
           (((List.range k).map
              (fun (j : Nat) => dayRowCount api vendor (it + (j : Int) * 86400))).sum)) := by
  induction k with
  | zero =>
    intro it st cn h1 h2
    have hstop : ¬ it + 86400 ≤ T := by
      push_cast at h2
      omega
    rw [syncLoop_stop _ _ _ _ _ _ _ _ hstop]
    simp [addCount_zero]
  | succ kk ih =>
    intro it st cn h1 h2
    have hk : it + ((kk : Int) + 1) * 86400 ≤ T := by
      have := h1 (Nat.succ_ne_zero kk)
      push_cast at this
      omega
    have hstep : it + 86400 ≤ T := by omega
    have h1' : kk ≠ 0 → (it + 86400) + (kk : Int) * 86400 ≤ T := by
      intro _
      omega
    have h2' : T < (it + 86400) + ((kk : Int) + 1) * 86400 := by
      push_cast at h2
      omega
    rw [syncLoop_step _ _ _ _ _ _ _ _ hstep]
    rw [ih (it + 86400) _ _ h1' h2']
    have harith : ∀ j : Nat, (it + 86400) + (j : Int) * 86400 = it + ((j : Int) + 1) * 86400 := by
      intro j
      ring
    simp only [Prod.mk.injEq]
    refine ⟨?_, ?_, ?_⟩
    · rw [List.range_succ_eq_map, List.map_cons, List.flatten_cons, List.map_map]
      have hhead : dayTrace api transform vendor schema T st (it + ((0 : Nat) : Int) * 86400)
          = dayTrace api transform vendor schema T st it := by
        norm_num
      rw [hhead]
      refine congrArg (dayTrace api transform vendor schema T st it ++ ·) ?_
      refine congrArg List.flatten ?_
      apply List.map_congr_left
      intro j _
      simp only [Function.comp_apply]
      rw [dayTrace_insert_same, harith j]
      have : ((Nat.succ j : Nat) : Int) = (j : Int) + 1 := by push_cast; ring
      rw [this]
    · by_cases hkk : kk = 0
      · subst hkk
        rw [if_pos rfl, if_neg (Nat.succ_ne_zero 0)]
        have e : it + (((Nat.succ 0 : Nat) : Int) - 1) * 86400 = it := by push_cast; ring
        rw [e]
      · rw [if_neg hkk, if_neg (Nat.succ_ne_zero kk)]
        rw [dictInsert_insert_same]
        have e : (it + 86400) + ((kk : Int) - 1) * 86400
            = it + (((Nat.succ kk : Nat) : Int) - 1) * 86400 := by push_cast; ring
        rw [e]
    · rw [addCount_addCount]
      refine congrArg (addCount cn "summary_sales_report" ·) ?_
      rw [List.range_succ_eq_map, List.map_cons, List.sum_cons, List.map_map]
      have hhead : dayRowCount api vendor (it + ((0 : Nat) : Int) * 86400)
          = dayRowCount api vendor it := by
        norm_num
      rw [hhead]
      refine congrArg (dayRowCount api vendor it + ·) ?_
      refine congrArg List.sum ?_
      apply List.map_congr_left
      intro j _
      simp only [Function.comp_apply]
      rw [harith j]
      have : ((Nat.succ j : Nat) : Int) = (j : Int) + 1 := by push_cast; ring
      rw [this]

/-- Full characterisation of a successful `query_report` run: `k` day blocks
in chronological order starting at the parsed bookmark, one final state write,
and the new-counts raised by the total parsed row count. -/
theorem query_report_run (catalog : List CatalogEntry) (config : Config)
    (state0 : Bookmarks) (api : Api) (transform : Transform) (T : Int) (cn : Counts)
    (entry : CatalogEntry) (b0 : Int) (k : Nat)
    (hcat : get_catalog_entry catalog "summary_sales_report" = some entry)
    (hbk : strptimeZ (get_bookmark state0 config.start_date "summary_sales_report") = some b0)
    (h1 : k ≠ 0 → b0 + (k : Int) * 86400 ≤ T)
    (h2 : T < b0 + ((k : Int) + 1) * 86400) :
    query_report catalog config state0 api transform T cn =
      (((List.range k).map
          (fun (j : Nat) =>
            dayTrace api transform config.vendor entry.schema T state0 (b0 + (j : Int) * 86400))).flatten
        ++ [Event.stateMsg
            (if k = 0 then state0
             else dictInsert state0 "summary_sales_report" (strftimeZ (b0 + ((k : Int) - 1) * 86400)))],
       Except.ok
        ((if k = 0 then state0
          else dictInsert state0 "summary_sales_report" (strftimeZ (b0 + ((k : Int) - 1) * 86400))),
         addCount cn "summary_sales_report"
           (((List.range k).map
              (fun (j : Nat) => dayRowCount api config.vendor (b0 + (j : Int) * 86400))).sum))) := by
  unfold query_report
  rw [hcat, hbk]
  dsimp only
  rw [syncLoop_run api transform config.vendor entry.schema T k b0 state0 cn h1 h2]

/-- Full characterisation of a successful `sync` run: the schema messages of
every catalog stream, then the `query_report` trace, with `updated_counts`
left at its all-zero initial value. -/
theorem sync_run (catalog : List CatalogEntry) (config : Config)
    (state0 : Bookmarks) (api : Api) (transform : Transform) (T : Int)
    (entry : CatalogEntry) (b0 : Int) (k : Nat)
    (hcat : get_catalog_entry catalog "summary_sales_report" = some entry)
    (hbk : strptimeZ (get_bookmark state0 config.start_date "summary_sales_report") = some b0)
    (h1 : k ≠ 0 → b0 + (k : Int) * 86400 ≤ T)
    (h2 : T < b0 + ((k : Int) + 1) * 86400) :
    sync catalog config state0 api transform T =
      (catalog.map (fun e => Event.schemaMsg e.tap_stream_id e.schema e.key_properties)
        ++ ((List.range k).map
            (fun (j : Nat) =>
              dayTrace api transform config.vendor entry.schema T state0 (b0 + (j : Int) * 86400))).flatten
        ++ [Event.stateMsg
            (if k = 0 then state0
             else dictInsert state0 "summary_sales_report" (strftimeZ (b0 + ((k : Int) - 1) * 86400)))],
       Except.ok
        ((if k = 0 then state0
          else dictInsert state0 "summary_sales_report" (strftimeZ (b0 + ((k : Int) - 1) * 86400))),
         addCount (catalog.foldl (fun c e => dictInsert c e.tap_stream_id 0) [])
           "summary_sales_report"
           (((List.range k).map
              (fun (j : Nat) => dayRowCount api config.vendor (b0 + (j : Int) * 86400))).sum),
         catalog.foldl (fun c e => dictInsert c e.tap_stream_id 0) [])) := by
  unfold sync
  dsimp only
  rw [query_report_run catalog config state0 api transform T _ entry b0 k hcat hbk h1 h2]
  simp [Except.map, List.append_assoc]

/-! ## Lookup structure of one parsed row -/

theorem mkLineObjAux_not_mem (cols : List String) (q : String) :
    ∀ (H : List String) (n : Nat) (d : Dict String), q ∉ H →
      ((H.enumFrom n).foldl
        (fun line_obj p =>
          if p.1 < cols.length then dictInsert line_obj p.2 (pyStrip (cols.getD p.1 ""))
          else line_obj)
        d)
      = d ∨
      dictGet
        ((H.enumFrom n).foldl
          (fun line_obj p =>
            if p.1 < cols.length then dictInsert line_obj p.2 (pyStrip (cols.getD p.1 ""))
            else line_obj)
          d) q
      = dictGet d q := by
  intro H
  induction H with
  | nil =>
    intro n d _
    left
    simp [List.enumFrom]
  | cons h rest ih =>
    intro n d hq
    right
    rw [List.enumFrom_cons, List.foldl_cons]
    have hqh : q ≠ h := fun hc => hq (hc ▸ List.mem_cons_self h rest)
    have hqrest : q ∉ rest := fun hc => hq (List.mem_cons_of_mem h hc)
    have step : dictGet (if n < cols.length
        then dictInsert d h (pyStrip (cols.getD n "")) else d) q = dictGet d q := by
      by_cases hn : n < cols.length
      · rw [if_pos hn, dictGet_insert_ne _ _ _ _ hqh]
      · rw [if_neg hn]
    rcases ih (n + 1) (if n < cols.length
        then dictInsert d h (pyStrip (cols.getD n "")) else d) hqrest with he | he
    · rw [he, step]
    · rw [he, step]

theorem mkLineObjAux_get_not_mem (cols : List String) (q : String)
    (H : List String) (n : Nat) (d : Dict String) (hq : q ∉ H) :
    dictGet
      ((H.enumFrom n).foldl
        (fun line_obj p =>
          if p.1 < cols.length then dictInsert line_obj p.2 (pyStrip (cols.getD p.1 ""))
          else line_obj)
        d) q
    = dictGet d q := by
  rcases mkLineObjAux_not_mem cols q H n d hq with he | he
  · rw [he]
  · exact he

theorem mkLineObjAux_get (cols : List String) :
    ∀ (H : List String), H.Nodup →
      ∀ (n : Nat) (d : Dict String) (i : Nat) (hi : i < H.length),
        dictGet
          ((H.enumFrom n).foldl
            (fun line_obj p =>
              if p.1 < cols.length then dictInsert line_obj p.2 (pyStrip (cols.getD p.1 ""))
              else line_obj)
            d)
          (H.get ⟨i, hi⟩)
        = (if n + i < cols.length then some (pyStrip (cols.getD (n + i) ""))
           else dictGet d (H.get ⟨i, hi⟩)) := by
  intro H
  induction H with
  | nil =>
    intro _ n d i hi
    exact absurd hi (by simp)
  | cons h rest ih =>
    intro hnd n d i hi
    have hmem : h ∉ rest := (List.nodup_cons.mp hnd).1
    have hndrest : rest.Nodup := (List.nodup_cons.mp hnd).2
    rw [List.enumFrom_cons, List.foldl_cons]
    cases i with
    | zero =>
      have hget : (h :: rest).get ⟨0, hi⟩ = h := rfl
      rw [hget]
      rw [mkLineObjAux_get_not_mem cols h rest (n + 1) _ hmem]
      by_cases hn : n < cols.length
      · rw [if_pos hn]
        have : n + 0 < cols.length := by omega
        rw [if_pos this, dictGet_insert_self]
        have : n + 0 = n := by omega
        rw [this]
      · rw [if_neg hn]
        have : ¬ n + 0 < cols.length := by omega
        rw [if_neg this]
    | succ j =>
      have hj : j < rest.length := by
        simpa using Nat.lt_of_succ_lt_succ hi
      have hget : (h :: rest).get ⟨j + 1, hi⟩ = rest.get ⟨j, hj⟩ := rfl
      rw [hget]
      rw [ih hndrest (n + 1) _ j hj]
      have hidx : n + 1 + j = n + (j + 1) := by omega
      rw [hidx]
      by_cases hc : n + (j + 1) < cols.length
      · rw [if_pos hc, if_pos hc]
      · rw [if_neg hc, if_neg hc]
        have hne : rest.get ⟨j, hj⟩ ≠ h := by
          intro hcne
          exact hmem (hcne ▸ List.get_mem rest j hj)
        by_cases hn : n < cols.length
        · rw [if_pos hn, dictGet_insert_ne _ _ _ _ hne]
        · rw [if_neg hn]

theorem mkLineObj_get (H cols : List String) (hnd : H.Nodup) (i : Nat) (hi : i < H.length) :
    dictGet (mkLineObj H cols) (H.get ⟨i, hi⟩) =
      if i < cols.length then some (pyStrip (cols.getD i "")) else none := by
  unfold mkLineObj
  rw [show H.enum = H.enumFrom 0 from rfl]
  rw [mkLineObjAux_get cols H hnd 0 [] i hi]
  simp [dictGet, Nat.zero_add]

theorem mkLineObj_get_not_mem (H cols : List String) (q : String) (hq : q ∉ H) :
    dictGet (mkLineObj H cols) q = none := by
  unfold mkLineObj
  rw [show H.enum = H.enumFrom 0 from rfl]
  rw [mkLineObjAux_get_not_mem cols q H 0 [] hq]
  rfl

theorem filterMap_skip_empty (g : String → Dict String) (xs : List String) :
    xs.filterMap (fun line => if line.length = 0 then none else some (g line)) =
      (xs.filter (fun line => !(line.length == 0))).map g := by
  induction xs with
  | nil => rfl
  | cons x rest ih =>
    by_cases hx : x.length = 0
    · simp [List.filterMap_cons, List.filter_cons, hx, ih]
    · simp [List.filterMap_cons, List.filter_cons, hx, ih]

/-- `tsv_to_list` as a map over the non-empty data lines. -/
theorem tsv_to_list_eq (tsv : String) :
    tsv_to_list tsv =
      (((pySplit tsv '\n').drop 1).filter (fun line => !(line.length == 0))).map
        (fun line =>
          mkLineObj
            ((pySplit ((pySplit tsv '\n').headD "") '\t').map
              (fun s => pyReplaceSpace (pyLower s)))
            (pySplit line '\t')) := by
  unfold tsv_to_list
  dsimp only
  rw [filterMap_skip_empty]

/-! ## Helper facts about runs -/

/-- Any extraction time admits a (unique) iteration count for the day loop. -/
theorem window_k_exists (b0 T : Int) :
    ∃ k : Nat, (k ≠ 0 → b0 + (k : Int) * 86400 ≤ T) ∧ T < b0 + ((k : Int) + 1) * 86400 := by
  have h1 : 86400 * ((T - b0).ediv 86400) + (T - b0).emod 86400 = T - b0 :=
    Int.ediv_add_emod (T - b0) 86400
  have h2 : 0 ≤ (T - b0).emod 86400 :=
    Int.emod_nonneg (T - b0) (by norm_num)
  have h3 : (T - b0).emod 86400 < 86400 :=
    Int.emod_lt_of_pos (T - b0) (by norm_num)
  refine ⟨((T - b0).ediv 86400).toNat, ?_, ?_⟩
  · intro hk
    omega
  · omega

/-- The bookmark state carried by a state-persistence event, if the event is
one. -/
def stateMsgContent : Event → Option Bookmarks
  | Event.stateMsg bk => some bk
  | _ => none

/-- Is the event a record emission. -/
def isRecordEvent : Event → Bool
  | Event.record _ _ _ => true
  | _ => false

theorem filterMap_state_dayRecords (transform : Transform) (schema : String) (T : Int)
    (raw : String) :
    List.filterMap stateMsgContent (dayRecords transform schema T raw) = [] := by
  unfold dayRecords
  generalize (tsv_to_list raw).enum = l
  induction l with
  | nil => rfl
  | cons a r ih => simpa [stateMsgContent] using ih

theorem countP_record_dayRecords (transform : Transform) (schema : String) (T : Int)
    (raw : String) :
    (dayRecords transform schema T raw).countP isRecordEvent = (tsv_to_list raw).length := by
  unfold dayRecords
  rw [List.countP_map]
  have : ((tsv_to_list raw).enum).countP
      ((fun e => isRecordEvent e) ∘ (fun p =>
        Event.record "summary_sales_report"
          (transform schema
            (dictInsert (p.2.map (fun q => (q.1, Value.str q.2))) "line_id"
              (Value.int ((p.1 : Int) + 1))))
          T))
      = ((tsv_to_list raw).enum).length := by
    rw [List.countP_eq_length]
    intro p _
    rfl
  rw [this, List.enum_length]

theorem filterMap_state_dayTrace (api : Api) (transform : Transform) (vendor schema : String)
    (T : Int) (st : Bookmarks) (d : Int) :
    List.filterMap stateMsgContent (dayTrace api transform vendor schema T st d)
      = [dictInsert st "summary_sales_report" (strftimeZ d)] := by
  unfold dayTrace
  rw [List.filterMap_append, List.filterMap_cons, filterMap_state_dayRecords]
  rfl

theorem countP_record_dayTrace (api : Api) (transform : Transform) (vendor schema : String)
    (T : Int) (st : Bookmarks) (d : Int) :
    (dayTrace api transform vendor schema T st d).countP isRecordEvent
      = dayRowCount api vendor d := by
  unfold dayTrace dayRowCount
  rw [List.countP_append, List.countP_cons, countP_record_dayRecords]
  simp [isRecordEvent, List.countP_cons]

theorem mem_dayTrace_cases (api : Api) (transform : Transform) (vendor schema : String)
    (T : Int) (st : Bookmarks) (d : Int) (e : Event)
    (he : e ∈ dayTrace api transform vendor schema T st d) :
    e = Event.fetch "SALES" "SUMMARY" "DAILY" vendor (strftimeDay d) "1_0" ∨
    (∃ r, e = Event.record "summary_sales_report" r T) ∨
    e = Event.stateMsg (dictInsert st "summary_sales_report" (strftimeZ d)) := by
  unfold dayTrace dayRecords at he
  rcases List.mem_cons.mp he with he | he
  · left
    exact he
  rcases List.mem_append.mp he with he | he
  · right
    left
    rcases List.mem_map.mp he with ⟨p, _, hp⟩
    exact ⟨_, hp.symm⟩
  · right
    right
    simpa using he

/-- Formatting a midnight instant: the time fields are all zero. -/
theorem strftimeZ_midnight (x : Int) (hx : x.emod 86400 = 0) :
    strftimeZ x = strftimeDay x ++ "T00:00:00Z" := by
  unfold strftimeZ
  dsimp only
  rw [hx]
  rw [show ((0 : Int).ediv 3600) = 0 from rfl, show ((0 : Int).ediv 60) = 0 from rfl,
    show ((0 : Int).emod 60) = 0 from rfl]
  rw [show pad2 0 = "00" from rfl]
  simp only [String.append_assoc]
  refine congrArg (strftimeDay x ++ ·) ?_
  rfl

/-- Do the last ten characters of the string read `T00:00:00Z`, i.e. is the
represented instant a whole-day boundary (time component 00:00:00 UTC). -/
def hasMidnightSuffix (s : String) : Bool :=
  s.toList.drop (s.toList.length - 10) == "T00:00:00Z".toList

theorem hasMidnightSuffix_append (s : String) :
    hasMidnightSuffix (s ++ "T00:00:00Z") = true := by
  unfold hasMidnightSuffix
  have h1 : (s ++ "T00:00:00Z").toList = s.toList ++ "T00:00:00Z".toList := by
    simp [String.toList, String.data_append]
  rw [h1, List.length_append]
  rw [show ("T00:00:00Z".toList).length = 10 from rfl]
  have h2 : s.toList.length + 10 - 10 = s.toList.length := by omega
  rw [h2, List.drop_left]
  rfl

theorem hasMidnightSuffix_strftimeZ (x : Int) (hx : x.emod 86400 = 0) :
    hasMidnightSuffix (strftimeZ x) = true := by
  rw [strftimeZ_midnight x hx]
  exact hasMidnightSuffix_append _

theorem dictGet_addCount (c : Counts) (k : String) (n : Nat) :
    dictGet (addCount c k n) k = (dictGet c k).map (fun m => m + n) := by
  induction c with
  | nil => rfl
  | cons p rest ih =>
    by_cases hp : (p.1 == k) = true
    · simp [addCount, dictGet, hp]
    · simp only [addCount, List.map_cons, if_neg hp]
      simp only [dictGet, hp, if_neg]
      simpa [addCount] using ih

theorem dictGet_foldl_insert_zero (catalog : List CatalogEntry) (s : String) :
    ∀ c0 : Counts,
      dictGet (catalog.foldl (fun c e => dictInsert c e.tap_stream_id 0) c0) s =
        if catalog.any (fun e => e.tap_stream_id == s) then some 0 else dictGet c0 s := by
  induction catalog with
  | nil =>
    intro c0
    simp
  | cons e rest ih =>
    intro c0
    rw [List.foldl_cons, ih (dictInsert c0 e.tap_stream_id 0), List.any_cons]
    by_cases hr : rest.any (fun e => e.tap_stream_id == s) = true
    · simp [hr]
    · simp only [Bool.not_eq_true] at hr
      rw [hr]
      by_cases he : (e.tap_stream_id == s) = true
      · have hs : s = e.tap_stream_id := (beq_iff_eq.mp he).symm
        subst hs
        simp [dictGet_insert_self]
      · simp only [Bool.not_eq_true] at he
        have hne : s ≠ e.tap_stream_id := by
          intro hc
          simp [hc] at he
        simp [he, dictGet_insert_ne c0 e.tap_stream_id s 0 hne]

theorem dictGet_foldl_insert_entry_not_any (catalog : List CatalogEntry) (s : String)
    (hna : catalog.any (fun e => e.tap_stream_id == s) = false) :
    ∀ m0 : Dict CatalogEntry,
      dictGet (catalog.foldl (fun m e => dictInsert m e.tap_stream_id e) m0) s = dictGet m0 s := by
  induction catalog with
  | nil =>
    intro m0
    rfl
  | cons e rest ih =>
    intro m0
    rw [List.any_cons] at hna
    have he : (e.tap_stream_id == s) = false := by
      cases hb : (e.tap_stream_id == s) <;> simp [hb] at hna ⊢
    have hr : rest.any (fun e => e.tap_stream_id == s) = false := by
      cases hb : rest.any (fun e => e.tap_stream_id == s) <;> simp [hb, he] at hna ⊢
    rw [List.foldl_cons, ih hr]
    have hne : s ≠ e.tap_stream_id := by
      intro hc
      simp [hc] at he
    exact dictGet_insert_ne m0 e.tap_stream_id s e hne

theorem get_catalog_entry_any (catalog : List CatalogEntry) (s : String)
    (entry : CatalogEntry) (h : get_catalog_entry catalog s = some entry) :
    catalog.any (fun e => e.tap_stream_id == s) = true := by
  by_contra hna
  simp only [Bool.not_eq_true] at hna
  unfold get_catalog_entry at h
  rw [dictGet_foldl_insert_entry_not_any catalog s hna []] at h
  exact Option.noConfusion h

/-- Replace only the selection flag of a catalog entry, leaving the fields the
sync path reads untouched. -/
def setSelected (e : CatalogEntry) (b : Bool) : CatalogEntry :=
  ⟨e.stream, e.tap_stream_id, e.schema, e.key_properties, b⟩

theorem dictInsert_map_value {α β : Type} (g : α → β) (m : Dict α) (k : String) (v : α) :
    (dictInsert m k v).map (fun p => (p.1, g p.2)) =
      dictInsert (m.map (fun p => (p.1, g p.2))) k (g v) := by
  induction m with
  | nil => rfl
  | cons p rest ih =>
    by_cases hp : (p.1 == k) = true
    · simp [dictInsert, hp]
    · simp [dictInsert, hp, ih]

theorem dictGet_map_value {α β : Type} (g : α → β) (m : Dict α) (s : String) :
    dictGet (m.map (fun p => (p.1, g p.2))) s = (dictGet m s).map g := by
  induction m with
  | nil => rfl
  | cons p rest ih =>
    by_cases hp : (p.1 == s) = true
    · simp [dictGet, hp]
    · simp [dictGet, hp, ih]

theorem get_catalog_entry_map (g : CatalogEntry → CatalogEntry)
    (hg : ∀ e, (g e).tap_stream_id = e.tap_stream_id)
    (catalog : List CatalogEntry) (s : String) :
    get_catalog_entry (catalog.map g) s = (get_catalog_entry catalog s).map g := by
  unfold get_catalog_entry
  have main : ∀ m0 : Dict CatalogEntry,
      (catalog.map g).foldl (fun m e => dictInsert m e.tap_stream_id e)
          (m0.map (fun p => (p.1, g p.2)))
        = (catalog.foldl (fun m e => dictInsert m e.tap_stream_id e) m0).map
            (fun p => (p.1, g p.2)) := by
    induction catalog with
    | nil =>
      intro m0
      rfl
    | cons e rest ih =>
      intro m0
      rw [List.map_cons, List.foldl_cons, List.foldl_cons, hg e, ← dictInsert_map_value]
      exact ih (dictInsert m0 e.tap_stream_id e)
  have h0 := main []
  rw [show (([] : Dict CatalogEntry).map (fun p => (p.1, g p.2))) = [] from rfl] at h0
  rw [h0, dictGet_map_value]

/-- Flipping selection flags in the catalog does not change the run at all:
the sync path never consults the selection metadata. -/
theorem sync_selected_independent (catalog : List CatalogEntry) (config : Config)
    (state0 : Bookmarks) (api : Api) (transform : Transform) (T : Int)
    (f : CatalogEntry → Bool) :
    sync (catalog.map (fun e => setSelected e (f e))) config state0 api transform T
      = sync catalog config state0 api transform T := by
  unfold sync query_report
  dsimp only
  rw [List.map_map, List.foldl_map]
  rw [get_catalog_entry_map (fun e => setSelected e (f e)) (fun _ => rfl)]
  cases hc : get_catalog_entry catalog "summary_sales_report" with
  | none => rfl
  | some entry => rfl

/-- Every event a run can emit is a schema message of a catalog stream, a
fetch with the hard-coded sales-report arguments, a record of the hard-coded
stream tagged with the extraction time, or a state message. -/
theorem sync_events_shape (catalog : List CatalogEntry) (config : Config)
    (state0 : Bookmarks) (api : Api) (transform : Transform) (T : Int) (e : Event)
    (he : e ∈ (sync catalog config state0 api transform T).1) :
    (∃ en, en ∈ catalog ∧ e = Event.schemaMsg en.tap_stream_id en.schema en.key_properties) ∨
    (∃ day, e = Event.fetch "SALES" "SUMMARY" "DAILY" config.vendor day "1_0") ∨
    (∃ r, e = Event.record "summary_sales_report" r T) ∨
    (∃ bk, e = Event.stateMsg bk) := by
  unfold sync at he
  dsimp only at he
  rcases List.mem_append.mp he with hs | hq
  · left
    rcases List.mem_map.mp hs with ⟨en, hen, hrfl⟩
    exact ⟨en, hen, hrfl.symm⟩
  · unfold query_report at hq
    cases hc : get_catalog_entry catalog "summary_sales_report" with
    | none =>
      rw [hc] at hq
      simp at hq
    | some entry =>
      rw [hc] at hq
      cases hb : strptimeZ (get_bookmark state0 config.start_date "summary_sales_report") with
      | none =>
        rw [hb] at hq
        simp at hq
      | some b0 =>
        rw [hb] at hq
        dsimp only at hq
        rcases List.mem_append.mp hq with hl | hf
        · obtain ⟨k, h1, h2⟩ := window_k_exists b0 T
          rw [syncLoop_run api transform config.vendor entry.schema T k b0 state0 _ h1 h2] at hl
          dsimp only at hl
          rcases List.mem_flatten.mp hl with ⟨blk, hblk, hebk⟩
          rcases List.mem_map.mp hblk with ⟨j, _, hjrfl⟩
          rw [← hjrfl] at hebk
          rcases mem_dayTrace_cases _ _ _ _ _ _ _ _ hebk with h | h | h
          · right
            left
            exact ⟨_, h⟩
          · right
            right
            left
            exact h
          · right
            right
            right
            exact ⟨_, h⟩
        · right
          right
          right
          rw [List.mem_singleton.mp hf]
          exact ⟨_, rfl⟩

/-! ## Concrete sample inputs used to instantiate the claims -/

/-- A one-stream catalog as `discover()` would produce it for the
`summary_sales_report` schema. -/
def sampleEntry : CatalogEntry :=
  ⟨"summary_sales_report", "summary_sales_report", "schema_blob",
    ["line_id", "begin_date", "end_date"], true⟩

/-- The sample catalog holding only `sampleEntry`. -/
def sampleCatalog : List CatalogEntry := [sampleEntry]

/-- A vendor client returning the same one-row daily report for every day. -/
def sampleApi : Api := fun _ _ _ _ _ _ =>
  "Begin Date\tEnd Date\tUnits\n2024-01-01\t2024-01-01\t5\n"

/-- A transformer that leaves records unchanged. -/
def idTransform : Transform := fun _ r => r

/-! ## The claims -/

/-- C1 (amended). For every run whose initial bookmark parses to a whole-day
instant `b0` and whose extraction time, captured once at run start, equals
`b0 + k` days `+ h` hours with `k ≥ 1` and `0 ≤ h < 24`, the sync engine
fetches and processes exactly the `k` days `b0, b0 + 1 day, …, b0 + (k-1)`
days, in chronological order (oldest first, and within a day in tabular row
order, as laid out by `dayTrace`), and the bookmark persisted at the end of
the run equals `b0 + (k-1)` days — the last day processed. (The original
claim said the final bookmark is `b0 + k` days; the code writes the bookmark
before advancing the iterator, so it stays one day behind, see the
counterexample.) -/
theorem C1_window_days_and_final_bookmark
    (catalog : List CatalogEntry) (config : Config) (state0 : Bookmarks)
    (api : Api) (transform : Transform) (T : Int) (entry : CatalogEntry)
    (b0 : Int) (k : Nat) (h : Int)
    (hcat : get_catalog_entry catalog "summary_sales_report" = some entry)
    (hbk : strptimeZ (get_bookmark state0 config.start_date "summary_sales_report") = some b0)
    (hday : b0.emod 86400 = 0)
    (hk : 1 ≤ k) (hh0 : 0 ≤ h) (hh : h < 24)
    (hT : T = b0 + (k : Int) * 86400 + h * 3600) :
    sync catalog config state0 api transform T =
      (catalog.map (fun e => Event.schemaMsg e.tap_stream_id e.schema e.key_properties)
        ++ ((List.range k).map
            (fun (j : Nat) =>
              dayTrace api transform config.vendor entry.schema T state0
                (b0 + (j : Int) * 86400))).flatten
        ++ [Event.stateMsg (dictInsert state0 "summary_sales_report"
              (strftimeZ (b0 + ((k : Int) - 1) * 86400)))],
       Except.ok
        (dictInsert state0 "summary_sales_report" (strftimeZ (b0 + ((k : Int) - 1) * 86400)),
         addCount (catalog.foldl (fun c e => dictInsert c e.tap_stream_id 0) [])
           "summary_sales_report"
           (((List.range k).map
              (fun (j : Nat) => dayRowCount api config.vendor (b0 + (j : Int) * 86400))).sum),
         catalog.foldl (fun c e => dictInsert c e.tap_stream_id 0) []))
      ∧ dictGet (dictInsert state0 "summary_sales_report"
            (strftimeZ (b0 + ((k : Int) - 1) * 86400))) "summary_sales_report"
          = some (strftimeZ (b0 + ((k : Int) - 1) * 86400)) := by
  have hkne : k ≠ 0 := by omega
  have h1 : k ≠ 0 → b0 + (k : Int) * 86400 ≤ T := by
    intro _
    omega
  have h2 : T < b0 + ((k : Int) + 1) * 86400 := by omega
  constructor
  · have hs := sync_run catalog config state0 api transform T entry b0 k hcat hbk h1 h2
    rw [hs, if_neg hkne]
  · exact dictGet_insert_self _ _ _

/-- Witness for C1 at the concrete scenario of the spec: start date
2024-01-01T00:00:00Z, extraction time 2024-01-03T10:00:00Z (`k = 2`,
`h = 10`); two days are processed and two records are counted. -/
theorem C1_witness :
    (get_catalog_entry sampleCatalog "summary_sales_report" = some sampleEntry)
    ∧ ((1704276000 : Int) = 1704067200 + (2 : Nat) * 86400 + 10 * 3600)
    ∧ (sync sampleCatalog ⟨"vendor1", "2024-01-01T00:00:00Z"⟩ [] sampleApi idTransform
        1704276000).2
      = Except.ok ([("summary_sales_report", "2024-01-02T00:00:00Z")],
          [("summary_sales_report", 2)], [("summary_sales_report", 0)]) := by
  refine ⟨by decide, by decide, ?_⟩
  have ht := C1_window_days_and_final_bookmark sampleCatalog
    ⟨"vendor1", "2024-01-01T00:00:00Z"⟩ [] sampleApi idTransform 1704276000 sampleEntry
    1704067200 2 10 (by decide) (by decide) (by decide) (by decide) (by decide) (by decide)
    (by decide)
  rw [ht.1]
  rfl

/-- C1 counterexample: in the claim's own concrete scenario
(`start_date = 2024-01-01T00:00:00Z`, `extraction_time = 2024-01-03T10:00:00Z`)
the bookmark persisted at the end of the run is `2024-01-02T00:00:00Z` — the
last processed day — and not `2024-01-03T00:00:00Z` (= `D0 + k` days) as the
claim states. -/
theorem C1_counterexample :
    (sync sampleCatalog ⟨"vendor1", "2024-01-01T00:00:00Z"⟩ [] sampleApi idTransform
        1704276000).2
      = Except.ok ([("summary_sales_report", "2024-01-02T00:00:00Z")],
          [("summary_sales_report", 2)], [("summary_sales_report", 0)])
    ∧ strptimeZ "2024-01-01T00:00:00Z" = some 1704067200
    ∧ strptimeZ "2024-01-03T10:00:00Z" = some 1704276000
    ∧ strftimeZ (1704067200 + 2 * 86400) = "2024-01-03T00:00:00Z"
    ∧ "2024-01-02T00:00:00Z" ≠ "2024-01-03T00:00:00Z" := by
  refine ⟨?_, by decide, by decide, by decide, by decide⟩
  have hs := sync_run sampleCatalog ⟨"vendor1", "2024-01-01T00:00:00Z"⟩ [] sampleApi
    idTransform 1704276000 sampleEntry 1704067200 2 (by decide) (by decide) (by decide)
    (by decide)
  rw [hs]
  rfl

theorem filterMap_state_schemas (catalog : List CatalogEntry) :
    List.filterMap stateMsgContent
      (catalog.map (fun e => Event.schemaMsg e.tap_stream_id e.schema e.key_properties)) = [] := by
  induction catalog with
  | nil => rfl
  | cons e rest ih => simpa [stateMsgContent] using ih

theorem filterMap_state_flatten (api : Api) (transform : Transform) (vendor schema : String)
    (T : Int) (st : Bookmarks) (b0 : Int) (js : List Nat) :
    List.filterMap stateMsgContent
        ((js.map (fun (j : Nat) =>
          dayTrace api transform vendor schema T st (b0 + (j : Int) * 86400))).flatten)
      = js.map (fun (j : Nat) =>
          dictInsert st "summary_sales_report" (strftimeZ (b0 + (j : Int) * 86400))) := by
  induction js with
  | nil => rfl
  | cons j rest ih =>
    rw [List.map_cons, List.flatten_cons, List.filterMap_append, filterMap_state_dayTrace,
      ih, List.map_cons]
    rfl

/-- C2 (amended). In every run whose initial bookmark parses to `b0`, the
bookmark states persisted during the run are, in order, exactly the states
holding the formatted values of `b0, b0 + 1 day, …, b0 + (k-1) days` —
each write advances the stored bookmark forward by exactly one day — followed
by the closing re-write of the last state; every instant written differs from
the run-start bookmark by a whole non-negative number of days, and, provided
the initial bookmark is a whole-day boundary (`b0 ≡ 0 mod 86400`, which the
code never enforces — see the counterexample), every bookmark string written
has time component 00:00:00 UTC. -/
theorem C2_bookmark_monotonic_day_boundaries
    (catalog : List CatalogEntry) (config : Config) (state0 : Bookmarks)
    (api : Api) (transform : Transform) (T : Int) (entry : CatalogEntry)
    (b0 : Int) (k : Nat)
    (hcat : get_catalog_entry catalog "summary_sales_report" = some entry)
    (hbk : strptimeZ (get_bookmark state0 config.start_date "summary_sales_report") = some b0)
    (hday : b0.emod 86400 = 0)
    (h1 : k ≠ 0 → b0 + (k : Int) * 86400 ≤ T)
    (h2 : T < b0 + ((k : Int) + 1) * 86400) :
    ((sync catalog config state0 api transform T).1.filterMap stateMsgContent
      = (List.range k).map
          (fun (j : Nat) =>
            dictInsert state0 "summary_sales_report" (strftimeZ (b0 + (j : Int) * 86400)))
        ++ [if k = 0 then state0
            else dictInsert state0 "summary_sales_report"
              (strftimeZ (b0 + ((k : Int) - 1) * 86400))])
    ∧ (∀ j : Nat,
        b0 ≤ b0 + (j : Int) * 86400
        ∧ (b0 + (j : Int) * 86400 - b0).emod 86400 = 0
        ∧ hasMidnightSuffix (strftimeZ (b0 + (j : Int) * 86400)) = true) := by
  constructor
  · have hs := sync_run catalog config state0 api transform T entry b0 k hcat hbk h1 h2
    rw [hs]
    dsimp only
    rw [List.filterMap_append, List.filterMap_append, filterMap_state_schemas,
      filterMap_state_flatten]
    rfl
  · intro j
    refine ⟨by omega, ?_, ?_⟩
    · have e1 : b0 + (j : Int) * 86400 - b0 = (j : Int) * 86400 := by ring
      rw [e1]
      exact Int.mul_emod_left _ _
    · refine hasMidnightSuffix_strftimeZ _ ?_
      show (b0 + (j : Int) * 86400) % 86400 = 0
      rw [Int.add_mul_emod_self]
      exact hday

/-- Witness for C2: a one-day run starting at the whole-day bookmark
2024-01-01T00:00:00Z persists that day's bookmark and then re-persists it at
the end; both stored values are day boundaries. -/
theorem C2_witness :
    ((1704067200 : Int).emod 86400 = 0)
    ∧ (sync sampleCatalog ⟨"vendor1", "2024-01-01T00:00:00Z"⟩ [] sampleApi idTransform
        1704153600).1.filterMap stateMsgContent
      = [[("summary_sales_report", "2024-01-01T00:00:00Z")],
         [("summary_sales_report", "2024-01-01T00:00:00Z")]] := by
  refine ⟨by decide, ?_⟩
  have ht := C2_bookmark_monotonic_day_boundaries sampleCatalog
    ⟨"vendor1", "2024-01-01T00:00:00Z"⟩ [] sampleApi idTransform 1704153600 sampleEntry
    1704067200 1 (by decide) (by decide) (by decide) (by decide) (by decide)
  rw [ht.1]
  rfl

/-- C2 counterexample: the code never truncates the configured start date to a
day boundary, so with `start_date = "2024-01-01T05:00:00Z"` a one-day run
stores the bookmark `"2024-01-01T05:00:00Z"`, whose time component is
05:00:00, not 00:00:00 UTC — the claim that every stored bookmark value is a
whole-day boundary is false on the code. -/
theorem C2_counterexample :
    (sync sampleCatalog ⟨"vendor1", "2024-01-01T05:00:00Z"⟩ [] sampleApi idTransform
        1704171600).1.filterMap stateMsgContent
      = [[("summary_sales_report", "2024-01-01T05:00:00Z")],
         [("summary_sales_report", "2024-01-01T05:00:00Z")]]
    ∧ strptimeZ "2024-01-01T05:00:00Z" = some 1704085200
    ∧ hasMidnightSuffix "2024-01-01T05:00:00Z" = false := by
  refine ⟨?_, by decide, by decide⟩
  have hs := sync_run sampleCatalog ⟨"vendor1", "2024-01-01T05:00:00Z"⟩ [] sampleApi
    idTransform 1704171600 sampleEntry 1704085200 1 (by decide) (by decide) (by decide)
    (by decide)
  rw [hs]
  rfl

/-- C3. For every day processed in a run, the bookmark write and state
persistence of that day come strictly after all of that day's record
emissions: each day's block of the trace is the fetch, then the records, then
the single state message of that day (and nothing of the day's block follows
it). Moreover a fresh run whose persisted bookmark parses to `b0` only ever
fetches the days `b0 + j` days for `0 ≤ j < k`; it never fetches a day
earlier than `b0`, in particular not `b0 - 1` day. -/
theorem C3_persist_after_full_emission
    (catalog : List CatalogEntry) (config : Config) (state0 : Bookmarks)
    (api : Api) (transform : Transform) (T : Int) (entry : CatalogEntry)
    (b0 : Int) (k : Nat)
    (hcat : get_catalog_entry catalog "summary_sales_report" = some entry)
    (hbk : strptimeZ (get_bookmark state0 config.start_date "summary_sales_report") = some b0)
    (h1 : k ≠ 0 → b0 + (k : Int) * 86400 ≤ T)
    (h2 : T < b0 + ((k : Int) + 1) * 86400) :
    ((sync catalog config state0 api transform T).1
      = catalog.map (fun e => Event.schemaMsg e.tap_stream_id e.schema e.key_properties)
        ++ ((List.range k).map
            (fun (j : Nat) =>
              Event.fetch "SALES" "SUMMARY" "DAILY" config.vendor
                  (strftimeDay (b0 + (j : Int) * 86400)) "1_0"
                :: dayRecords transform entry.schema T
                    (api "SALES" "SUMMARY" "DAILY" config.vendor
                      (strftimeDay (b0 + (j : Int) * 86400)) "1_0")
                ++ [Event.stateMsg (dictInsert state0 "summary_sales_report"
                    (strftimeZ (b0 + (j : Int) * 86400)))])).flatten
        ++ [Event.stateMsg
            (if k = 0 then state0
             else dictInsert state0 "summary_sales_report"
              (strftimeZ (b0 + ((k : Int) - 1) * 86400)))])
    ∧ (∀ a b c v day ver,
        Event.fetch a b c v day ver ∈ (sync catalog config state0 api transform T).1 →
          ∃ j : Nat, j < k ∧ day = strftimeDay (b0 + (j : Int) * 86400)
            ∧ b0 ≤ b0 + (j : Int) * 86400) := by
  have hs := sync_run catalog config state0 api transform T entry b0 k hcat hbk h1 h2
  constructor
  · rw [hs]
    simp only [dayTrace]
  · intro a b c v day ver hmem
    rw [hs] at hmem
    dsimp only at hmem
    rcases List.mem_append.mp hmem with hm | hm
    · rcases List.mem_append.mp hm with hm | hm
      · exfalso
        rcases List.mem_map.mp hm with ⟨en, _, he⟩
        exact Event.noConfusion he
      · rcases List.mem_flatten.mp hm with ⟨blk, hblk, hin⟩
        rcases List.mem_map.mp hblk with ⟨j, hjr, hjeq⟩
        rw [← hjeq] at hin
        rcases mem_dayTrace_cases _ _ _ _ _ _ _ _ hin with hcase | hcase | hcase
        · refine ⟨j, List.mem_range.mp hjr, ?_, by omega⟩
          injection hcase with e1 e2 e3 e4 e5 e6
        · exfalso
          rcases hcase with ⟨r, hr⟩
          exact Event.noConfusion hr
        · exact absurd hcase (by simp)
    · exfalso
      rw [List.mem_singleton] at hm
      exact Event.noConfusion hm

/-- Witness for C3 on a concrete one-day run: the trace is the schema message,
the fetch of 2024-01-01, that day's single record, the state write of that day
after the record, and the final repeated state write. -/
theorem C3_witness :
    (strptimeZ (get_bookmark [] "2024-01-01T00:00:00Z" "summary_sales_report")
      = some 1704067200)
    ∧ (sync sampleCatalog ⟨"vendor1", "2024-01-01T00:00:00Z"⟩ [] sampleApi idTransform
        1704153600).1
      = [Event.schemaMsg "summary_sales_report" "schema_blob"
           ["line_id", "begin_date", "end_date"],
         Event.fetch "SALES" "SUMMARY" "DAILY" "vendor1" "2024-01-01" "1_0",
         Event.record "summary_sales_report"
           [("begin_date", Value.str "2024-01-01"), ("end_date", Value.str "2024-01-01"),
            ("units", Value.str "5"), ("line_id", Value.int 1)] 1704153600,
         Event.stateMsg [("summary_sales_report", "2024-01-01T00:00:00Z")],
         Event.stateMsg [("summary_sales_report", "2024-01-01T00:00:00Z")]] := by
  refine ⟨by decide, ?_⟩
  have ht := C3_persist_after_full_emission sampleCatalog
    ⟨"vendor1", "2024-01-01T00:00:00Z"⟩ [] sampleApi idTransform 1704153600 sampleEntry
    1704067200 1 (by decide) (by decide) (by decide) (by decide)
  rw [ht.1]
  rfl

/-- The mapping keys `tsv_to_list` derives from the first line of the text:
tab-separated column names, lower-cased, spaces replaced by underscores. -/
def tsvHeader (tsv : String) : List String :=
  (pySplit ((pySplit tsv '\n').headD "") '\t').map (fun s => pyReplaceSpace (pyLower s))

/-- The non-empty data lines of the text (everything after the header line,
with empty lines skipped). -/
def tsvDataLines (tsv : String) : List String :=
  ((pySplit tsv '\n').drop 1).filter (fun line => !(line.length == 0))

/-- C4. For every input text whose header names (after lower-casing and
underscore replacement) are distinct, `tsv_to_list` returns exactly one
mapping per non-empty data line, in input row order; each mapping binds, for
every header position that exists in that row, the modified header name to
that row's tab-separated value with surrounding whitespace stripped; a row
with fewer columns than the header lacks the trailing keys, extra columns
beyond the header are ignored (no key outside the header ever appears), and
empty lines yield no mapping. -/
theorem C4_tsv_to_list_rows (tsv : String) (hnd : (tsvHeader tsv).Nodup) :
    (tsv_to_list tsv
      = (tsvDataLines tsv).map (fun line => mkLineObj (tsvHeader tsv) (pySplit line '\t')))
    ∧ ((tsv_to_list tsv).length = (tsvDataLines tsv).length)
    ∧ (∀ (cols : List String) (i : Nat) (hi : i < (tsvHeader tsv).length),
        dictGet (mkLineObj (tsvHeader tsv) cols) ((tsvHeader tsv).get ⟨i, hi⟩)
          = if i < cols.length then some (pyStrip (cols.getD i "")) else none)
    ∧ (∀ (cols : List String) (q : String), q ∉ tsvHeader tsv →
        dictGet (mkLineObj (tsvHeader tsv) cols) q = none) := by
  have hmain : tsv_to_list tsv
      = (tsvDataLines tsv).map (fun line => mkLineObj (tsvHeader tsv) (pySplit line '\t')) := by
    unfold tsvHeader tsvDataLines
    exact tsv_to_list_eq tsv
  refine ⟨hmain, ?_, ?_, ?_⟩
  · rw [hmain, List.length_map]
  · intro cols i hi
    exact mkLineObj_get (tsvHeader tsv) cols hnd i hi
  · intro cols q hq
    exact mkLineObj_get_not_mem (tsvHeader tsv) cols q hq

/-- Witness for C4 on a concrete text exercising every edge case: a two-name
header with a space, a full row with padded values, an empty line, a short
row, and a row with an extra column. -/
theorem C4_witness :
    ((tsvHeader "A B\tC\nx \t y\n\nshort\n1\t2\t3").Nodup)
    ∧ tsv_to_list "A B\tC\nx \t y\n\nshort\n1\t2\t3"
      = (tsvDataLines "A B\tC\nx \t y\n\nshort\n1\t2\t3").map
          (fun line => mkLineObj (tsvHeader "A B\tC\nx \t y\n\nshort\n1\t2\t3")
            (pySplit line '\t'))
    ∧ tsv_to_list "A B\tC\nx \t y\n\nshort\n1\t2\t3"
      = [[("a_b", "x"), ("c", "y")], [("a_b", "short")], [("a_b", "1"), ("c", "2")]] := by
  refine ⟨by decide, ?_, by decide⟩
  exact (C4_tsv_to_list_rows "A B\tC\nx \t y\n\nshort\n1\t2\t3" (by decide)).1

/-- C5. The stored bookmark (or the configured `start_date` fallback) is
parsed against the format `%Y-%m-%dT%H:%M:%SZ` with CPython `strptime`
semantics before anything else happens in `query_report`; whenever that parse
fails, the run raises and aborts before any report fetch: the outcome is an
error, and the only events ever emitted are the schema announcements — zero
fetches, zero records and zero bookmark/state writes. The parse boundary is
CPython's, not a fixed-width one: leading zeros are optional in the numeric
fields and the `T`/`Z` literals match case-insensitively, so
`2024-1-1T00:00:00Z`, `2024-01-01T0:0:0Z` and `2024-01-01t00:00:00z` all
parse to the same instant as `2024-01-01T00:00:00Z` and do not abort, while
`2024-00-01T00:00:00Z`, `2024-02-30T00:00:00Z` and `2024-01-01T00:00:60Z`
are rejected. -/
theorem C5_malformed_bookmark_aborts
    (catalog : List CatalogEntry) (config : Config) (state0 : Bookmarks)
    (api : Api) (transform : Transform) (T : Int)
    (hbad : strptimeZ (get_bookmark state0 config.start_date "summary_sales_report") = none) :
    ((sync catalog config state0 api transform T).2.isOk = false)
    ∧ ((sync catalog config state0 api transform T).1
        = catalog.map (fun e => Event.schemaMsg e.tap_stream_id e.schema e.key_properties))
    ∧ strptimeZ "2024-1-1T00:00:00Z" = some 1704067200
    ∧ strptimeZ "2024-01-01T0:0:0Z" = some 1704067200
    ∧ strptimeZ "2024-01-01t00:00:00z" = some 1704067200
    ∧ strptimeZ "2024-00-01T00:00:00Z" = none
    ∧ strptimeZ "2024-02-30T00:00:00Z" = none
    ∧ strptimeZ "2024-01-01T00:00:60Z" = none := by
  refine ⟨?_, ?_, by decide, by decide, by decide, by decide, by decide, by decide⟩
  all_goals
    unfold sync query_report
    dsimp only
  · cases hc : get_catalog_entry catalog "summary_sales_report" with
    | none => rfl
    | some entry =>
      rw [hbad]
      rfl
  · cases hc : get_catalog_entry catalog "summary_sales_report" with
    | none => simp
    | some entry =>
      rw [hbad]
      simp

/-- Witness for C5: with no stored bookmark and the malformed configured
start date `"not-a-date"`, the run errors out having emitted only the schema
message; meanwhile the non-zero-padded lowercase `"2024-1-1t0:0:0z"` is not
malformed — it parses to 2024-01-01T00:00:00Z, as in CPython. -/
theorem C5_witness :
    (strptimeZ (get_bookmark [] "not-a-date" "summary_sales_report") = none)
    ∧ (strptimeZ "2024-1-1t0:0:0z" = some 1704067200)
    ∧ ((sync sampleCatalog ⟨"vendor1", "not-a-date"⟩ [] sampleApi idTransform
          1704153600).2.isOk = false)
    ∧ ((sync sampleCatalog ⟨"vendor1", "not-a-date"⟩ [] sampleApi idTransform 1704153600).1
        = sampleCatalog.map
            (fun e => Event.schemaMsg e.tap_stream_id e.schema e.key_properties)) :=
  ⟨by decide, by decide,
   (C5_malformed_bookmark_aborts sampleCatalog ⟨"vendor1", "not-a-date"⟩ [] sampleApi
     idTransform 1704153600 (by decide)).1,
   (C5_malformed_bookmark_aborts sampleCatalog ⟨"vendor1", "not-a-date"⟩ [] sampleApi
     idTransform 1704153600 (by decide)).2.1⟩

/-- C6. Whenever the extraction time captured at run start is less than one
full day after the parsed initial bookmark, the day loop performs zero
iterations: no fetch happens, no record is emitted, the bookmark state is
unchanged, and the run still completes successfully, writing the unchanged
state exactly once at the end (after the schema announcements), with all
counters still zero. -/
theorem C6_caught_up_noop
    (catalog : List CatalogEntry) (config : Config) (state0 : Bookmarks)
    (api : Api) (transform : Transform) (T : Int) (entry : CatalogEntry) (b0 : Int)
    (hcat : get_catalog_entry catalog "summary_sales_report" = some entry)
    (hbk : strptimeZ (get_bookmark state0 config.start_date "summary_sales_report") = some b0)
    (hT : T < b0 + 86400) :
    sync catalog config state0 api transform T =
      (catalog.map (fun e => Event.schemaMsg e.tap_stream_id e.schema e.key_properties)
        ++ [Event.stateMsg state0],
       Except.ok (state0,
         catalog.foldl (fun c e => dictInsert c e.tap_stream_id 0) [],
         catalog.foldl (fun c e => dictInsert c e.tap_stream_id 0) [])) := by
  have hs := sync_run catalog config state0 api transform T entry b0 0 hcat hbk
    (fun hk => absurd rfl hk) (by push_cast; omega)
  rw [hs]
  simp [addCount_zero]

/-- Witness for C6: extraction time ten hours past the bookmark leaves the
run with only the schema message and one unchanged state write, succeeding
with zero counts. -/
theorem C6_witness :
    ((1704103200 : Int) < 1704067200 + 86400)
    ∧ sync sampleCatalog ⟨"vendor1", "2024-01-01T00:00:00Z"⟩ [] sampleApi idTransform
        1704103200
      = ([Event.schemaMsg "summary_sales_report" "schema_blob"
            ["line_id", "begin_date", "end_date"],
          Event.stateMsg []],
         Except.ok ([], [("summary_sales_report", 0)], [("summary_sales_report", 0)])) := by
  refine ⟨by decide, ?_⟩
  have ht := C6_caught_up_noop sampleCatalog ⟨"vendor1", "2024-01-01T00:00:00Z"⟩ []
    sampleApi idTransform 1704103200 sampleEntry 1704067200 (by decide) (by decide)
    (by decide)
  rw [ht]
  rfl

/-- C7. In every run, the i-th parsed mapping of a day's report (1-based) is
emitted as the transform of that mapping with the field `line_id = i`
injected, and the numbering restarts at 1 for each new day (the enumeration
is taken per day); concretely, the tabular input
`"Begin Date\tEnd Date\tUnits\n2024-01-01\t2024-01-01\t5\n"` parses to the
single mapping `{begin_date, end_date, units}`, which after injection carries
`line_id = 1`. -/
theorem C7_line_id_per_day
    (catalog : List CatalogEntry) (config : Config) (state0 : Bookmarks)
    (api : Api) (transform : Transform) (T : Int) (entry : CatalogEntry)
    (b0 : Int) (k : Nat)
    (hcat : get_catalog_entry catalog "summary_sales_report" = some entry)
    (hbk : strptimeZ (get_bookmark state0 config.start_date "summary_sales_report") = some b0)
    (h1 : k ≠ 0 → b0 + (k : Int) * 86400 ≤ T)
    (h2 : T < b0 + ((k : Int) + 1) * 86400) :
    ((sync catalog config state0 api transform T).1
      = catalog.map (fun e => Event.schemaMsg e.tap_stream_id e.schema e.key_properties)
        ++ ((List.range k).map
            (fun (j : Nat) =>
              Event.fetch "SALES" "SUMMARY" "DAILY" config.vendor
                  (strftimeDay (b0 + (j : Int) * 86400)) "1_0"
                :: ((tsv_to_list (api "SALES" "SUMMARY" "DAILY" config.vendor
                      (strftimeDay (b0 + (j : Int) * 86400)) "1_0")).enum.map
                    (fun p =>
                      Event.record "summary_sales_report"
                        (transform entry.schema
                          (dictInsert (p.2.map (fun q => (q.1, Value.str q.2))) "line_id"
                            (Value.int ((p.1 : Int) + 1))))
                        T))
                ++ [Event.stateMsg (dictInsert state0 "summary_sales_report"
                    (strftimeZ (b0 + (j : Int) * 86400)))])).flatten
        ++ [Event.stateMsg
            (if k = 0 then state0
             else dictInsert state0 "summary_sales_report"
              (strftimeZ (b0 + ((k : Int) - 1) * 86400)))])
    ∧ (∀ (r : Dict String) (n : Int),
        dictGet (dictInsert (r.map (fun q => (q.1, Value.str q.2))) "line_id" (Value.int n))
            "line_id"
          = some (Value.int n))
    ∧ tsv_to_list "Begin Date\tEnd Date\tUnits\n2024-01-01\t2024-01-01\t5\n"
        = [[("begin_date", "2024-01-01"), ("end_date", "2024-01-01"), ("units", "5")]]
    ∧ dictInsert
        ([("begin_date", "2024-01-01"), ("end_date", "2024-01-01"),
          ("units", "5")].map (fun q => (q.1, Value.str q.2)))
        "line_id" (Value.int 1)
      = [("begin_date", Value.str "2024-01-01"), ("end_date", Value.str "2024-01-01"),
         ("units", Value.str "5"), ("line_id", Value.int 1)] := by
  refine ⟨?_, ?_, by decide, by decide⟩
  · have hs := sync_run catalog config state0 api transform T entry b0 k hcat hbk h1 h2
    rw [hs]
    simp only [dayTrace, dayRecords]
  · intro r n
    exact dictGet_insert_self _ _ _

/-- Witness for C7: a one-day run over the concrete tabular input emits the
single record with `line_id = 1`. -/
theorem C7_witness :
    (get_catalog_entry sampleCatalog "summary_sales_report" = some sampleEntry)
    ∧ tsv_to_list "Begin Date\tEnd Date\tUnits\n2024-01-01\t2024-01-01\t5\n"
        = [[("begin_date", "2024-01-01"), ("end_date", "2024-01-01"), ("units", "5")]] :=
  ⟨by decide,
   (C7_line_id_per_day sampleCatalog ⟨"vendor1", "2024-01-01T00:00:00Z"⟩ [] sampleApi
     idTransform 1704153600 sampleEntry 1704067200 1 (by decide) (by decide) (by decide)
     (by decide)).2.2.1⟩

/-- C8. `get_bookmark` returns the value stored in the state under the
stream's `start_date` bookmark when it exists, and the configured
`start_date` otherwise; a run with no prior bookmark for the stream therefore
begins its sync window at the configured start date. -/
theorem C8_get_bookmark_fallback :
    ∀ (state : Bookmarks) (config_start_date name : String),
      get_bookmark state config_start_date name
        = (dictGet state name).getD config_start_date := by
  intro state cfg name
  unfold get_bookmark singer_get_bookmark
  cases hd : dictGet state name <;> rfl

theorem countP_record_schemas (catalog : List CatalogEntry) :
    (catalog.map (fun e => Event.schemaMsg e.tap_stream_id e.schema e.key_properties)).countP
      isRecordEvent = 0 := by
  induction catalog with
  | nil => rfl
  | cons e rest ih => simpa [List.countP_cons, isRecordEvent] using ih

theorem countP_record_flatten (api : Api) (transform : Transform) (vendor schema : String)
    (T : Int) (st : Bookmarks) (b0 : Int) (js : List Nat) :
    ((js.map (fun (j : Nat) =>
        dayTrace api transform vendor schema T st (b0 + (j : Int) * 86400))).flatten).countP
        isRecordEvent
      = (js.map (fun (j : Nat) => dayRowCount api vendor (b0 + (j : Int) * 86400))).sum := by
  induction js with
  | nil => rfl
  | cons j rest ih =>
    rw [List.map_cons, List.flatten_cons, List.countP_append, countP_record_dayTrace,
      ih, List.map_cons, List.sum_cons]

/-- C9. At sync start both counters are zero for every stream of the catalog;
each emitted record increments the synced stream's `new_counts` by exactly
one, so the final `new_counts` of `summary_sales_report` equals the total
number of record events of the run, while `updated_counts` is returned
exactly as initialised — zero for every stream. -/
theorem C9_counters
    (catalog : List CatalogEntry) (config : Config) (state0 : Bookmarks)
    (api : Api) (transform : Transform) (T : Int) (entry : CatalogEntry)
    (b0 : Int) (k : Nat)
    (hcat : get_catalog_entry catalog "summary_sales_report" = some entry)
    (hbk : strptimeZ (get_bookmark state0 config.start_date "summary_sales_report") = some b0)
    (h1 : k ≠ 0 → b0 + (k : Int) * 86400 ≤ T)
    (h2 : T < b0 + ((k : Int) + 1) * 86400) :
    (∀ en ∈ catalog,
        dictGet (catalog.foldl (fun c e => dictInsert c e.tap_stream_id 0) [])
          en.tap_stream_id = some 0)
    ∧ ((sync catalog config state0 api transform T).2
        = Except.ok
            ((if k = 0 then state0
              else dictInsert state0 "summary_sales_report"
                (strftimeZ (b0 + ((k : Int) - 1) * 86400))),
             addCount (catalog.foldl (fun c e => dictInsert c e.tap_stream_id 0) [])
               "summary_sales_report"
               (((List.range k).map
                  (fun (j : Nat) => dayRowCount api config.vendor (b0 + (j : Int) * 86400))).sum),
             catalog.foldl (fun c e => dictInsert c e.tap_stream_id 0) []))
    ∧ (dictGet
        (addCount (catalog.foldl (fun c e => dictInsert c e.tap_stream_id 0) [])
          "summary_sales_report"
          (((List.range k).map
            (fun (j : Nat) => dayRowCount api config.vendor (b0 + (j : Int) * 86400))).sum))
        "summary_sales_report"
      = some (((List.range k).map
          (fun (j : Nat) => dayRowCount api config.vendor (b0 + (j : Int) * 86400))).sum))
    ∧ ((sync catalog config state0 api transform T).1.countP isRecordEvent
        = ((List.range k).map
            (fun (j : Nat) => dayRowCount api config.vendor (b0 + (j : Int) * 86400))).sum) := by
  have hs := sync_run catalog config state0 api transform T entry b0 k hcat hbk h1 h2
  have hany : catalog.any (fun e => e.tap_stream_id == "summary_sales_report") = true :=
    get_catalog_entry_any catalog "summary_sales_report" entry hcat
  refine ⟨?_, ?_, ?_, ?_⟩
  · intro en hen
    rw [dictGet_foldl_insert_zero catalog en.tap_stream_id []]
    have hin : catalog.any (fun e => e.tap_stream_id == en.tap_stream_id) = true :=
      List.any_eq_true.mpr ⟨en, hen, beq_self_eq_true en.tap_stream_id⟩
    rw [if_pos hin]
  · rw [hs]
  · rw [dictGet_addCount, dictGet_foldl_insert_zero catalog "summary_sales_report" [],
      if_pos hany]
    simp
  · rw [hs]
    dsimp only
    rw [List.countP_append, List.countP_append, countP_record_schemas,
      countP_record_flatten]
    simp [isRecordEvent, List.countP_cons]

/-- Witness for C9: on the two-day concrete run both counters start at zero,
two records are emitted and counted as new, and `updated_counts` stays zero. -/
theorem C9_witness :
    (get_catalog_entry sampleCatalog "summary_sales_report" = some sampleEntry)
    ∧ (sync sampleCatalog ⟨"vendor1", "2024-01-01T00:00:00Z"⟩ [] sampleApi idTransform
        1704276000).2
      = Except.ok ([("summary_sales_report", "2024-01-02T00:00:00Z")],
          [("summary_sales_report", 2)], [("summary_sales_report", 0)]) := by
  refine ⟨by decide, ?_⟩
  have ht := C9_counters sampleCatalog ⟨"vendor1", "2024-01-01T00:00:00Z"⟩ [] sampleApi
    idTransform 1704276000 sampleEntry 1704067200 2 (by decide) (by decide) (by decide)
    (by decide)
  rw [ht.2.1]
  rfl

/-- C10. In every run — successful or not — record emissions carry only the
hard-coded stream name `summary_sales_report` and the run's extraction time,
every report fetch uses the hard-coded sales-summary-daily arguments with the
configured vendor, a schema message is written for every stream present in
the catalog (the events start with exactly one schema message per catalog
entry), and the whole run output is unchanged under arbitrary re-labelling of
the selection flags: the selection metadata is never consulted by the sync
path. -/
theorem C10_hardcoded_stream
    (catalog : List CatalogEntry) (config : Config) (state0 : Bookmarks)
    (api : Api) (transform : Transform) (T : Int) :
    (∀ s r te, Event.record s r te ∈ (sync catalog config state0 api transform T).1 →
        s = "summary_sales_report" ∧ te = T)
    ∧ (∀ a b c v day ver,
        Event.fetch a b c v day ver ∈ (sync catalog config state0 api transform T).1 →
          a = "SALES" ∧ b = "SUMMARY" ∧ c = "DAILY" ∧ v = config.vendor ∧ ver = "1_0")
    ∧ ((sync catalog config state0 api transform T).1.take catalog.length
        = catalog.map (fun e => Event.schemaMsg e.tap_stream_id e.schema e.key_properties))
    ∧ (∀ f : CatalogEntry → Bool,
        sync (catalog.map (fun e => setSelected e (f e))) config state0 api transform T
          = sync catalog config state0 api transform T) := by
  refine ⟨?_, ?_, ?_, ?_⟩
  · intro s r te hmem
    rcases sync_events_shape catalog config state0 api transform T _ hmem with
      ⟨en, _, he⟩ | ⟨day, he⟩ | ⟨r2, he⟩ | ⟨bk, he⟩
    · exact Event.noConfusion he
    · exact Event.noConfusion he
    · injection he with e1 e2 e3
      exact ⟨e1, e3⟩
    · exact Event.noConfusion he
  · intro a b c v day ver hmem
    rcases sync_events_shape catalog config state0 api transform T _ hmem with
      ⟨en, _, he⟩ | ⟨day2, he⟩ | ⟨r2, he⟩ | ⟨bk, he⟩
    · exact Event.noConfusion he
    · injection he with e1 e2 e3 e4 e5 e6
      exact ⟨e1, e2, e3, e4, e6⟩
    · exact Event.noConfusion he
    · exact Event.noConfusion he
  · unfold sync
    dsimp only
    rw [List.take_append_of_le_length (by rw [List.length_map])]
    rw [List.take_of_length_le (by rw [List.length_map])]
  · intro f
    exact sync_selected_independent catalog config state0 api transform T f

/-- Witness for C10: on a concrete failed-and-successful pair of runs the
record stream is the hard-coded one, and flipping the selection flag of the
sample catalog entry changes nothing. -/
theorem C10_witness :
    (Event.record "summary_sales_report"
        [("begin_date", Value.str "2024-01-01"), ("end_date", Value.str "2024-01-01"),
         ("units", Value.str "5"), ("line_id", Value.int 1)] 1704153600
      ∈ (sync sampleCatalog ⟨"vendor1", "2024-01-01T00:00:00Z"⟩ [] sampleApi idTransform
          1704153600).1 →
      "summary_sales_report" = "summary_sales_report"
        ∧ (1704153600 : Int) = 1704153600)
    ∧ sync (sampleCatalog.map (fun e => setSelected e false))
        ⟨"vendor1", "2024-01-01T00:00:00Z"⟩ [] sampleApi idTransform 1704153600
      = sync sampleCatalog ⟨"vendor1", "2024-01-01T00:00:00Z"⟩ [] sampleApi idTransform
          1704153600 :=
  ⟨fun hmem =>
    (C10_hardcoded_stream sampleCatalog ⟨"vendor1", "2024-01-01T00:00:00Z"⟩ [] sampleApi
      idTransform 1704153600).1 "summary_sales_report" _ 1704153600 hmem,
   (C10_hardcoded_stream sampleCatalog ⟨"vendor1", "2024-01-01T00:00:00Z"⟩ [] sampleApi
      idTransform 1704153600).2.2.2 (fun _ => false)⟩
